import Mathlib

/-!
Verification development for `vendor/github.com/shirou/gopsutil/net/net_linux.go`:
Linux procfs network telemetry (interface counters, protocol counters,
per-process socket connection tables).

The Go source is shallowly embedded: pure functions become Lean functions,
file I/O is abstracted by an explicit environment (`ProcEnv`) holding the
results of `ReadLines`, `ReadDir`, `Readlink`, `PathExists` and the procfs
directory listing, machine integers become `Nat`/`Int` with explicit
wrap-arounds where Go converts (e.g. `uint32(x)`), fallible Go code returns
`Except`, and a Go runtime panic (out-of-range index or slice) is modelled by
a dedicated `.oob` error value.  Go strings are modelled at rune level:
byte offsets produced by `strings.IndexRune` coincide with character offsets
on the ASCII data these parsers consume.
-/

/-- Character classifier of Go's `strings.Fields` (`unicode.IsSpace`),
restricted to the Latin-1 range Go special-cases. -/
def goIsSpace (c : Char) : Bool :=
  c = ' ' ∨ c = '\t' ∨ c = '\n' ∨ c.toNat = 11 ∨ c.toNat = 12 ∨ c = '\r' ∨
  c.toNat = 133 ∨ c.toNat = 160

/-- Split a character list at every character satisfying `p`, keeping empty
segments (the semantics of Go `strings.Split` / `strings.FieldsFunc`
boundaries).  Structural recursion so that the kernel can evaluate it. -/
def splitPred (p : Char → Bool) : List Char → List (List Char)
  | [] => [[]]
  | c :: cs =>
    if p c then [] :: splitPred p cs
    else
      match splitPred p cs with
      | t :: ts => (c :: t) :: ts
      | [] => [[c]]

/-- Go `strings.Split(s, sep)` for a one-character separator. -/
def goSplit (s : String) (sep : Char) : List String :=
  (splitPred (fun c => c = sep) s.data).map String.mk

/-- Go `strings.Fields`: split around runs of white space, dropping empties. -/
def goFields (s : String) : List String :=
  ((splitPred goIsSpace s.data).map String.mk).filter (fun t => t ≠ "")

/-- First `n` characters of `s` (byte and rune offsets coincide on the ASCII
data parsed here). -/
def strTake (s : String) (n : Nat) : String :=
  String.mk (s.data.take n)

/-- Characters of `s` from position `n` on. -/
def strDrop (s : String) (n : Nat) : String :=
  String.mk (s.data.drop n)

/-- Remove the last `n` characters of `s`. -/
def strDropRight (s : String) (n : Nat) : String :=
  String.mk (s.data.take (s.data.length - n))

/-- Go `strings.ToLower` on the ASCII data parsed here. -/
def strToLower (s : String) : String :=
  String.mk (s.data.map Char.toLower)

/-- Go `strings.HasPrefix`. -/
def strStartsWith (s pre : String) : Bool :=
  pre.data.isPrefixOf s.data

/-- Go `strings.HasSuffix`. -/
def strEndsWith (s suf : String) : Bool :=
  suf.data.isSuffixOf s.data

/-- Join with a separator (`strings.Join` / the ':' interleaving of
`net.IP.String`). -/
def strJoinSep (sep : String) : List String → String
  | [] => ""
  | [x] => x
  | x :: xs => x ++ sep ++ strJoinSep sep xs

/-- Value of one hexadecimal digit, as accepted by Go's
`encoding/hex.fromHexChar` and by `strconv` in base 16. -/
def hexCharVal (c : Char) : Option Nat :=
  if '0' ≤ c ∧ c ≤ '9' then some (c.toNat - 48)
  else if 'a' ≤ c ∧ c ≤ 'f' then some (c.toNat - 87)
  else if 'A' ≤ c ∧ c ≤ 'F' then some (c.toNat - 55)
  else none

/-- Go `encoding/hex.DecodeString` on a list of characters: consume pairs of
hex digits into bytes; odd length or an invalid digit is an error. -/
def hexDecodePairs : List Char → Option (List Nat)
  | [] => some []
  | [_] => none
  | a :: b :: rest =>
    match hexCharVal a, hexCharVal b, hexDecodePairs rest with
    | some ha, some hb, some t => some ((16 * ha + hb) :: t)
    | _, _, _ => none

/-- Go `encoding/hex.DecodeString`. -/
def hexDecode (s : String) : Option (List Nat) :=
  hexDecodePairs s.data

/-- Digit loop of Go `strconv.ParseUint` in base 16 with a base-0 prefix
(`"0x" ++ p`): hex digits accumulate, `_` is allowed only directly after a
digit (the `0x` prefix counts as a digit) and must be followed by a digit.
The `Bool` argument records whether the previous character was a digit. -/
def hexUndLoop : List Char → Nat → Bool → Option Nat
  | [], acc, prevDigit => if prevDigit then some acc else none
  | c :: cs, acc, prevDigit =>
    match hexCharVal c with
    | some d => hexUndLoop cs (16 * acc + d) true
    | none =>
      if c = '_' ∧ prevDigit then hexUndLoop cs acc false else none

/-- Go `strconv.ParseInt("0x" ++ p, 0, 64)` as used by `decodeAddress` for the
port: empty `p` falls into the octal branch and fails; otherwise base-16
digits with Go's underscore rule; values at or above `2^63` are a range
error.  Returns the parsed value (before the `uint32` conversion). -/
def goParseHexPort (p : String) : Option Nat :=
  match p.data with
  | [] => none
  | cs =>
    match hexUndLoop cs 0 true with
    | none => none
    | some v => if v < 2 ^ 63 then some v else none

/-- Digit loop of Go `strconv.ParseUint` in a fixed base 10 (no underscores). -/
def decDigitsGo : List Char → Nat → Option Nat
  | [], acc => some acc
  | c :: cs, acc =>
    if '0' ≤ c ∧ c ≤ '9' then decDigitsGo cs (10 * acc + (c.toNat - 48))
    else none

/-- Go `strconv.ParseInt(s, 10, bits)`: optional sign, at least one decimal
digit, result within the signed `bits`-bit range. -/
def goParseIntDec (bits : Nat) (s : String) : Option Int :=
  let sd : Bool × List Char :=
    match s.data with
    | '+' :: cs => (false, cs)
    | '-' :: cs => (true, cs)
    | cs => (false, cs)
  match sd.2 with
  | [] => none
  | _ =>
    match decDigitsGo sd.2 0 with
    | none => none
    | some n =>
      let v : Int := if sd.1 then -(n : Int) else (n : Int)
      if -(2 ^ (bits - 1) : Int) ≤ v ∧ v ≤ 2 ^ (bits - 1) - 1 then some v
      else none

/-- Go `strconv.Atoi` (= `ParseInt(s, 10, 0)` with the platform int = 64 bit). -/
def goAtoi (s : String) : Option Int :=
  goParseIntDec 64 s

/-- Go `uint32(i)` conversion of a (possibly negative) integer. -/
def intToUInt32 (i : Int) : Nat :=
  (i % (2 ^ 32 : Int)).toNat

/-- Lower-case hex digit character, as in Go's `net` package `hexDigit`. -/
def hexDigitChar (n : Nat) : Char :=
  if n < 10 then Char.ofNat (48 + n) else Char.ofNat (87 + n)

/-- Hex digits of `n` (no leading zeros), with fuel; `appendHex` in Go's `net`
package emits at most 8 digits for a `uint32`. -/
def hexCharsAux : Nat → Nat → List Char
  | 0, _ => []
  | fuel + 1, n =>
    if n = 0 then [] else hexCharsAux fuel (n / 16) ++ [hexDigitChar (n % 16)]

/-- Go `net.appendHex`: lower-case hex of a 16-bit group without leading
zeros, except that zero prints as "0". -/
def hexGroup (n : Nat) : String :=
  if n = 0 then "0" else String.mk (hexCharsAux 8 n)

/-- Two-digit lower-case hex of a byte (Go `net.hexString` per byte). -/
def byteHex (n : Nat) : String :=
  String.mk [hexDigitChar (n / 16 % 16), hexDigitChar (n % 16)]

/-- Go `net.hexString`. -/
def hexLower (l : List Nat) : String :=
  (l.map byteHex).foldl (fun a b => a ++ b) ""

/-- Dotted-decimal rendering of 4 bytes (Go `net.IP.String` IPv4 branch). -/
def ip4Dotted : List Nat → String
  | [a, b, c, d] =>
    Nat.repr a ++ "." ++ Nat.repr b ++ "." ++ Nat.repr c ++ "." ++ Nat.repr d
  | _ => ""

/-- Pair up 16 bytes into eight 16-bit groups. -/
def groups16 : List Nat → List Nat
  | a :: b :: rest => (a * 256 + b) :: groups16 rest
  | _ => []

/-- Length of the run of zero groups at the head of the list. -/
def zeroRunLen : List Nat → Nat
  | 0 :: rest => zeroRunLen rest + 1
  | _ => 0

/-- Scan of Go `net.IP.String` that finds the first longest run of zero
16-bit groups (start index, length); a later run replaces the current best
only when strictly longer. -/
def bestZeroRun : List Nat → Nat → Nat × Nat → Nat × Nat
  | [], _, best => best
  | g :: rest, idx, best =>
    let r := zeroRunLen (g :: rest)
    bestZeroRun rest (idx + 1) (if r > best.2 then (idx, r) else best)

/-- IPv6 rendering branch of Go `net.IP.String` on the eight 16-bit groups:
the first longest run of at least two zero groups is compressed to `::`. -/
def ipv6Render (g : List Nat) : String :=
  let best := bestZeroRun g 0 (0, 0)
  if best.2 ≤ 1 then strJoinSep ":" (g.map hexGroup)
  else
    strJoinSep ":" ((g.take best.1).map hexGroup) ++ "::" ++
      strJoinSep ":" ((g.drop (best.1 + best.2)).map hexGroup)

/-- Go `net.IP.To4` test for a 16-byte IPv4-in-IPv6 address. -/
def isV4inV6 (ip : List Nat) : Bool :=
  (ip.take 10).all (fun b => b = 0) ∧ ip.getD 10 0 = 255 ∧ ip.getD 11 0 = 255

/-- Go `net.IP.String` (standard library, not part of this file's source):
`"<nil>"` for an empty address, dotted decimal for 4 bytes or an
IPv4-in-IPv6 16-byte address, the canonical compressed form for other
16-byte addresses, and the `"?"`-marked raw hex fallback otherwise. -/
def ipToString (ip : List Nat) : String :=
  if ip.length = 0 then "<nil>"
  else if ip.length = 4 then ip4Dotted ip
  else if ip.length = 16 ∧ isV4inV6 ip then ip4Dotted (ip.drop 12)
  else if ip.length ≠ 16 then "?" ++ hexLower ip
  else ipv6Render (groups16 ip)

/-- Address record (`net.Addr` in gopsutil: an IP string and a `uint32`
port), as populated by this file. -/
structure Addr where
  ip : String
  port : Nat
deriving DecidableEq, Repr

/-- Errors of `decodeAddress` (the spec's `MalformedInput` family), one
constructor per `fmt.Errorf` site. -/
inductive AddrErr where
  | noPort
  | invalidPort
  | decodeError
  | invalidIPv6
deriving DecidableEq, Repr

/-- Go `Reverse`: reverse an array of bytes (in place in Go; the returned
value is what matters to callers). -/
def Reverse (s : List Nat) : List Nat :=
  s.reverse

/-- Go `parseIPv6HexString`: 16 bytes exactly, each consecutive 4-byte group
reversed independently. -/
def groupRev4 : List Nat → List Nat
  | a :: b :: c :: d :: rest => d :: c :: b :: a :: groupRev4 rest
  | rest => rest

/-- Go `parseIPv6HexString`. -/
def parseIPv6HexString (src : List Nat) : Option (List Nat) :=
  if src.length ≠ 16 then none else some (groupRev4 src)

/-- Address family constant `syscall.AF_INET`. -/
def AF_INET : Nat := 2

/-- Address family constant `syscall.AF_INET6`. -/
def AF_INET6 : Nat := 10

/-- Address family constant `syscall.AF_UNIX`. -/
def AF_UNIX : Nat := 1

/-- Socket type constant `syscall.SOCK_STREAM`. -/
def SOCK_STREAM : Nat := 1

/-- Socket type constant `syscall.SOCK_DGRAM`. -/
def SOCK_DGRAM : Nat := 2

/-- Go `decodeAddress`: split the token on ':', parse the port as
`ParseInt("0x"+rhs, 0, 64)`, hex-decode the address part, byte-reverse it for
`AF_INET` or group-reverse it (16 bytes required) for other families, render
with `net.IP.String`, and store `uint32(port)`. -/
def decodeAddress (family : Nat) (src : String) : Except AddrErr Addr :=
  match goSplit src ':' with
  | [a, p] =>
    match goParseHexPort p with
    | none => .error .invalidPort
    | some port =>
      match hexDecode a with
      | none => .error .decodeError
      | some decoded =>
        if family = AF_INET then
          .ok ⟨ipToString (Reverse decoded), port % 2 ^ 32⟩
        else
          match parseIPv6HexString decoded with
          | none => .error .invalidIPv6
          | some bs => .ok ⟨ipToString bs, port % 2 ^ 32⟩
  | _ => .error .noPort

/-- Fixed protocol list `netProtocols`. -/
def netProtocols : List String :=
  ["ip", "icmp", "icmpmsg", "tcp", "udp", "udplite"]

/-- Result record of `NetProtoCounters` (`NetProtoCountersStat`): protocol
name and the counter map, modelled as an insertion-ordered association list
with Go-map overwrite semantics. -/
structure NetProtoCountersStat where
  protocol : String
  stats : List (String × Int)
deriving DecidableEq, Repr

/-- Errors of `NetProtoCounters` over already-read lines; `.oob` models a Go
runtime panic (string slice or line index out of range). -/
inductive ProtoErr where
  | noColon
  | mismatch
  | intParse
  | oob
deriving DecidableEq, Repr

/-- Go map insert `m[k] = v` on an association list: overwrite if present,
append otherwise. -/
def statsInsert (m : List (String × Int)) (k : String) (v : Int) :
    List (String × Int) :=
  if m.any (fun kv => kv.1 = k) then
    m.map (fun kv => if kv.1 = k then (k, v) else kv)
  else m ++ [(k, v)]

/-- Byte index of the first ':' (`strings.IndexRune(line, ':')`); rune and
byte positions coincide on the ASCII lines being parsed. -/
def strIndexOfColon (s : String) : Option Nat :=
  s.data.findIdx? (fun c => c = ':')

/-- Line loop of Go `NetProtoCounters`, with one pattern per number of
remaining lines: each header line must contain ':'; an unrequested protocol
skips its value line unparsed; a requested protocol reads the header labels
after `": "`, the value tokens of the next line at the same offset, requires
equal token counts, and parses each value with `ParseInt(v, 10, 64)`.
Slicing a line shorter than the offset, or a requested header with no
following value line, is a Go panic (`.oob`). -/
def protoLoop (protos : List String) :
    List String → Except ProtoErr (List NetProtoCountersStat)
  | [] => .ok []
  | [line] =>
    match strIndexOfColon line with
    | none => .error .noColon
    | some r =>
      if strToLower (strTake line r) ∈ protos then
        .error .oob
      else .ok []
  | line :: vline :: rest2 =>
    match strIndexOfColon line with
    | none => .error .noColon
    | some r =>
      if strToLower (strTake line r) ∈ protos then
        if line.length < r + 2 then .error .oob
        else
          let statNames := goSplit (strDrop line (r + 2)) ' '
          if vline.length < r + 2 then .error .oob
          else
            let statValues := goSplit (strDrop vline (r + 2)) ' '
            if statNames.length ≠ statValues.length then .error .mismatch
            else
              match statValues.mapM (goParseIntDec 64) with
              | none => .error .intParse
              | some vals =>
                match protoLoop protos rest2 with
                | .error e => .error e
                | .ok stats =>
                  .ok (⟨strToLower (strTake line r),
                        (statNames.zip vals).foldl
                          (fun m kv => statsInsert m kv.1 kv.2) []⟩ :: stats)
      else protoLoop protos rest2

/-- Go `NetProtoCounters`, abstracted over the lines of `/proc/net/snmp`
(`common.ReadLines` is the external I/O layer): an empty request list is
replaced by the full `netProtocols` list. -/
def NetProtoCounters (protocols : List String) (lines : List String) :
    Except ProtoErr (List NetProtoCountersStat) :=
  protoLoop (if protocols.isEmpty then netProtocols else protocols) lines

/-- The `(pid, fd)` pair of gopsutil's `inodeMap`. -/
structure InodeMap where
  pid : Int
  fd : Nat
deriving DecidableEq, Repr

/-- The inode-ownership index `map[string][]inodeMap`, modelled as an
insertion-ordered association list. -/
abbrev InodeIndex : Type :=
  List (String × List InodeMap)

/-- Go map lookup on the inode index. -/
def lookupIndex : InodeIndex → String → Option (List InodeMap)
  | [], _ => none
  | (k, v) :: rest, key => if k = key then some v else lookupIndex rest key

/-- Go map key-existence test on the inode index. -/
def hasKey (m : InodeIndex) (k : String) : Bool :=
  (lookupIndex m k).isSome

/-- Replace the binding of `k` by appending `im` to its list. -/
def indexAppend (m : InodeIndex) (k : String) (im : InodeMap) : InodeIndex :=
  m.map (fun kv => if kv.1 = k then (kv.1, kv.2 ++ [im]) else kv)

/-- Go `updateMap`: merge `add` into `src`, concatenating the lists of keys
present in both. -/
def updateMap (src add : InodeIndex) : InodeIndex :=
  add.foldl
    (fun s kv =>
      match lookupIndex s kv.1 with
      | none => s ++ [(kv.1, kv.2)]
      | some a => s.map (fun e => if e.1 = kv.1 then (e.1, a ++ kv.2) else e))
    src

/-- The fields of gopsutil's `connTmp`. -/
structure ConnTmp where
  fd : Nat
  family : Nat
  sockType : Nat
  laddr : Addr
  raddr : Addr
  status : String
  pid : Int
  boundPid : Int
  path : String
deriving DecidableEq, Repr

/-- The fields of gopsutil's `NetConnectionStat` populated by this file
(fd, family, type, local/remote address, status, pid). -/
structure NetConnectionStat where
  fd : Nat
  family : Nat
  sockType : Nat
  laddr : Addr
  raddr : Addr
  status : String
  pid : Int
deriving DecidableEq, Repr

/-- Errors of the connection enumeration; `.oob` models a Go runtime panic. -/
inductive NetErr where
  | invalidKind (kind : String)
  | couldNotGetPids (pid : Int)
  | ioError
  | strconvError
  | oob
deriving DecidableEq, Repr

/-- Go `netConnectionKindType`. -/
structure NetConnectionKindType where
  family : Nat
  sockType : Nat
  filename : String
deriving DecidableEq, Repr

/-- Go `kindTCP4`. -/
def kindTCP4 : NetConnectionKindType :=
  ⟨AF_INET, SOCK_STREAM, "tcp"⟩

/-- Go `kindTCP6`. -/
def kindTCP6 : NetConnectionKindType :=
  ⟨AF_INET6, SOCK_STREAM, "tcp6"⟩

/-- Go `kindUDP4`. -/
def kindUDP4 : NetConnectionKindType :=
  ⟨AF_INET, SOCK_DGRAM, "udp"⟩

/-- Go `kindUDP6`. -/
def kindUDP6 : NetConnectionKindType :=
  ⟨AF_INET6, SOCK_DGRAM, "udp6"⟩

/-- Go `kindUNIX` (`sockType` is the Go zero value 0). -/
def kindUNIX : NetConnectionKindType :=
  ⟨AF_UNIX, 0, "unix"⟩

/-- Go `netConnectionKindMap`. -/
def netConnectionKindMap (kind : String) : Option (List NetConnectionKindType) :=
  if kind = "all" then some [kindTCP4, kindTCP6, kindUDP4, kindUDP6, kindUNIX]
  else if kind = "tcp" then some [kindTCP4, kindTCP6]
  else if kind = "tcp4" then some [kindTCP4]
  else if kind = "tcp6" then some [kindTCP6]
  else if kind = "udp" then some [kindUDP4, kindUDP6]
  else if kind = "udp4" then some [kindUDP4]
  else if kind = "udp6" then some [kindUDP6]
  else if kind = "unix" then some [kindUNIX]
  else if kind = "inet" then some [kindTCP4, kindTCP6, kindUDP4, kindUDP6]
  else if kind = "inet4" then some [kindTCP4, kindUDP4]
  else if kind = "inet6" then some [kindTCP6, kindUDP6]
  else none

/-- The key set of `netConnectionKindMap`, as the spec enumerates it. -/
def validKinds : List String :=
  ["all", "tcp", "tcp4", "tcp6", "udp", "udp4", "udp6", "unix", "inet",
   "inet4", "inet6"]

/-- Go `TCPStatuses` map lookup; a missing key yields the Go zero value `""`. -/
def TCPStatuses (s : String) : String :=
  if s = "01" then "ESTABLISHED"
  else if s = "02" then "SYN_SENT"
  else if s = "03" then "SYN_RECV"
  else if s = "04" then "FIN_WAIT1"
  else if s = "05" then "FIN_WAIT2"
  else if s = "06" then "TIME_WAIT"
  else if s = "07" then "CLOSE"
  else if s = "08" then "CLOSE_WAIT"
  else if s = "09" then "LAST_ACK"
  else if s = "0A" then "LISTEN"
  else if s = "0B" then "CLOSING"
  else ""

/-- External I/O environment: the results the trusted I/O layer
(`common.ReadLines`, `ioutil.ReadDir`, `os.Readlink`, `common.PathExists`,
`common.HostProc`, `Readdirnames`) would deliver during one call.  `none`
models the corresponding I/O error. -/
structure ProcEnv where
  root : String
  readLines : String → Option (List String)
  readDir : String → Option (List String)
  readlink : String → Option String
  pathExists : String → Bool
  procNames : Option (List String)


/-- Path `root/pid/fd` built by `getProcInodes` (`fmt.Sprintf("%s/%d/fd", ...)`). -/
def fdDirPath (root : String) (pid : Int) : String :=
  root ++ "/" ++ toString pid ++ "/fd"

/-- Body of the `getProcInodes` loop for one directory entry: resolve the
descriptor symlink; skip unresolvable or non-`socket:[...]` targets; slice
out the inode digits (`inode[8 : len-1]`, a panic when the target is exactly
"socket:["); create the key's (empty) list if absent; skip entries with a
non-numeric name after that; append `(pid, uint32(fd))`. -/
def procInodeStep (env : ProcEnv) (pid : Int) (ret : InodeIndex) (name : String) :
    Except NetErr InodeIndex :=
  match env.readlink (fdDirPath env.root pid ++ "/" ++ name) with
  | none => .ok ret
  | some inode =>
    if strStartsWith inode "socket:[" then
      if inode.length < 9 then .error .oob
      else
        let key := strDropRight (strDrop inode 8) 1
        let ret1 := if hasKey ret key then ret else ret ++ [(key, [])]
        match goAtoi name with
        | none => .ok ret1
        | some fd => .ok (indexAppend ret1 key ⟨pid, intToUInt32 fd⟩)
    else .ok ret

/-- Go `getProcInodes`: an unreadable fd directory yields an empty map and no
error; otherwise fold `procInodeStep` over the directory entries.  The Go
function never returns a non-nil error; the only failure the model can
produce is the `.oob` panic of `procInodeStep`. -/
def getProcInodes (env : ProcEnv) (pid : Int) : Except NetErr InodeIndex :=
  match env.readDir (fdDirPath env.root pid) with
  | none => .ok []
  | some files => files.foldlM (procInodeStep env pid) []

/-- Go `Pids`: list the procfs root directory and keep the entries whose name
parses with `ParseInt(name, 10, 32)`. -/
def Pids (env : ProcEnv) : Except NetErr (List Int) :=
  match env.procNames with
  | none => .error .ioError
  | some names => .ok (names.filterMap (goParseIntDec 32))

/-- Go `getProcInodesAll`: build the per-pid map for every pid and merge the
non-empty ones with `updateMap`. -/
def getProcInodesAll (env : ProcEnv) : Except NetErr InodeIndex :=
  match Pids env with
  | .error e => .error e
  | .ok pids =>
    pids.foldlM
      (fun ret pid =>
        (getProcInodes env pid).map
          (fun t => if t.isEmpty then ret else updateMap ret t))
      []

/-- Row loop of Go `processInet` over the data lines (header already
skipped): lines with fewer than 10 fields are skipped; the inode of field 9
is resolved through the index (first pair wins; a key bound to an empty list
is the Go panic `i[0]`); a non-matching pid filter skips the row; stream
sockets map field 3 through `TCPStatuses`, others read "NONE"; a decode
failure of either address skips the row. -/
def processInetLoop (kind : NetConnectionKindType) (inodes : InodeIndex)
    (filterPid : Int) : List String → Except NetErr (List ConnTmp)
  | [] => .ok []
  | line :: rest =>
    let l := goFields line
    if l.length < 10 then processInetLoop kind inodes filterPid rest
    else
      match lookupIndex inodes (l.getD 9 "") with
      | some [] => .error .oob
      | io =>
        let pid : Int := match io with | some (x :: _) => x.pid | _ => 0
        let fd : Nat := match io with | some (x :: _) => x.fd | _ => 0
        if filterPid > 0 ∧ filterPid ≠ pid then
          processInetLoop kind inodes filterPid rest
        else
          let status :=
            if kind.sockType = SOCK_STREAM then TCPStatuses (l.getD 3 "")
            else "NONE"
          match decodeAddress kind.family (l.getD 1 "") with
          | .error _ => processInetLoop kind inodes filterPid rest
          | .ok la =>
            match decodeAddress kind.family (l.getD 2 "") with
            | .error _ => processInetLoop kind inodes filterPid rest
            | .ok ra =>
              match processInetLoop kind inodes filterPid rest with
              | .error e => .error e
              | .ok ret =>
                .ok (⟨fd, kind.family, kind.sockType, la, ra, status, pid, 0, ""⟩ :: ret)

/-- Go `processInet`: a missing IPv6 table is an empty result; a `ReadLines`
failure is fatal; `lines[1:]` on an empty file is a Go slice panic. -/
def processInet (env : ProcEnv) (file : String) (kind : NetConnectionKindType)
    (inodes : InodeIndex) (filterPid : Int) : Except NetErr (List ConnTmp) :=
  if strEndsWith file "6" ∧ env.pathExists file = false then .ok []
  else
    match env.readLines file with
    | none => .error .ioError
    | some [] => .error .oob
    | some (_ :: data) => processInetLoop kind inodes filterPid data

/-- Row loop of Go `processUnix` over the data lines: lines with fewer than
6 fields are skipped; field 4 must parse with `Atoi` (a parse failure aborts
the whole parse); field 6 is the inode key, read without a length guard
(`tokens[6]` on a 6-field line is the Go panic `.oob`); an inode absent from
the index synthesizes one placeholder `(0, 0)` owner; one record is emitted
per owner pair passing the pid filter, carrying field 7 as the path on
8-field lines. -/
def processUnixLoop (kind : NetConnectionKindType) (inodes : InodeIndex)
    (filterPid : Int) : List String → Except NetErr (List ConnTmp)
  | [] => .ok []
  | line :: rest =>
    let tokens := goFields line
    if tokens.length < 6 then processUnixLoop kind inodes filterPid rest
    else
      match goAtoi (tokens.getD 4 "") with
      | none => .error .strconvError
      | some st =>
        match tokens.get? 6 with
        | none => .error .oob
        | some inode =>
          let pairs :=
            match lookupIndex inodes inode with
            | none => [(⟨0, 0⟩ : InodeMap)]
            | some ps => ps
          let path := if tokens.length = 8 then tokens.getD 7 "" else ""
          let recs := pairs.filterMap
            (fun pair =>
              if filterPid > 0 ∧ filterPid ≠ pair.pid then none
              else
                some (⟨pair.fd, kind.family, intToUInt32 st, ⟨path, 0⟩,
                       ⟨"", 0⟩, "NONE", pair.pid, 0, path⟩ : ConnTmp))
          match processUnixLoop kind inodes filterPid rest with
          | .error e => .error e
          | .ok ret => .ok (recs ++ ret)

/-- Go `processUnix`: a `ReadLines` failure is fatal; `lines[1:]` on an empty
file is a Go slice panic. -/
def processUnix (env : ProcEnv) (file : String) (kind : NetConnectionKindType)
    (inodes : InodeIndex) (filterPid : Int) : Except NetErr (List ConnTmp) :=
  match env.readLines file with
  | none => .error .ioError
  | some [] => .error .oob
  | some (_ :: data) => processUnixLoop kind inodes filterPid data

/-- Dispatch of the `switch t.family` in `NetConnectionsPid`:
`AF_INET`/`AF_INET6` rows go through `processInet`, `AF_UNIX` through
`processUnix`; any other family leaves `ls` nil with no error. -/
def runParser (env : ProcEnv) (inodes : InodeIndex) (pid : Int)
    (t : NetConnectionKindType) : Except NetErr (List ConnTmp) :=
  let path := env.root ++ "/net/" ++ t.filename
  if t.family = AF_INET ∨ t.family = AF_INET6 then
    processInet env path t inodes pid
  else if t.family = AF_UNIX then processUnix env path t inodes pid
  else .ok []

/-- Modelled from the spec: `NetConnectionStat.String()` (the JSON
serialization used as the duplicate-check key, defined in the package's
`net.go`, which is not part of this file) is a canonical serialization of
the full field tuple (fd, family, type, both addresses, status, pid); the
spec prescribes deduplication "by full structural equality of the emitted
record".  It is therefore modelled as the identity key on the record. -/
def dedupKey (c : NetConnectionStat) : NetConnectionStat :=
  c

/-- Construction of the emitted `NetConnectionStat` from a `connTmp`,
including the owning-pid resolution (`boundPid` when the row pid is 0). -/
def mkStat (c : ConnTmp) : NetConnectionStat :=
  ⟨c.fd, c.family, c.sockType, c.laddr, c.raddr, c.status,
   if c.pid = 0 then c.boundPid else c.pid⟩

/-- One step of the duplicate check of `NetConnectionsPid`: `acc.1` is `ret`,
`acc.2` the set of keys already in `dupCheckMap`. -/
def dedupStep (acc : List NetConnectionStat × List NetConnectionStat)
    (c : ConnTmp) : List NetConnectionStat × List NetConnectionStat :=
  let conn := mkStat c
  if dedupKey conn ∈ acc.2 then acc
  else (acc.1 ++ [conn], dedupKey conn :: acc.2)

/-- The inner `for _, c := range ls` loop of `NetConnectionsPid`. -/
def dedupFold (cs : List ConnTmp)
    (acc : List NetConnectionStat × List NetConnectionStat) :
    List NetConnectionStat × List NetConnectionStat :=
  cs.foldl dedupStep acc

/-- The outer `for _, t := range tmap` loop of `NetConnectionsPid`. -/
def connKindsLoop (env : ProcEnv) (inodes : InodeIndex) (pid : Int) :
    List NetConnectionKindType →
    List NetConnectionStat × List NetConnectionStat →
    Except NetErr (List NetConnectionStat × List NetConnectionStat)
  | [], acc => .ok acc
  | t :: ts, acc =>
    match runParser env inodes pid t with
    | .error e => .error e
    | .ok ls => connKindsLoop env inodes pid ts (dedupFold ls acc)

/-- Parsing-and-dedup phase of `NetConnectionsPid` once the inode index is
built. -/
def connPhase (env : ProcEnv) (tmap : List NetConnectionKindType)
    (inodes : InodeIndex) (pid : Int) : Except NetErr (List NetConnectionStat) :=
  match connKindsLoop env inodes pid tmap ([], []) with
  | .error e => .error e
  | .ok acc => .ok acc.1

/-- Go `NetConnectionsPid`: validate the kind, build the inode index
(system-wide for pid 0, short-circuiting to an empty result when a single
pid's index is empty), then parse and deduplicate.  A non-nil index-builder
error becomes "cound not get pid(s)"; the `.oob` panic aborts as such. -/
def NetConnectionsPid (env : ProcEnv) (kind : String) (pid : Int) :
    Except NetErr (List NetConnectionStat) :=
  match netConnectionKindMap kind with
  | none => .error (.invalidKind kind)
  | some tmap =>
    if pid = 0 then
      match getProcInodesAll env with
      | .error .oob => .error .oob
      | .error _ => .error (.couldNotGetPids pid)
      | .ok inodes => connPhase env tmap inodes pid
    else
      match getProcInodes env pid with
      | .error e => .error e
      | .ok inodes =>
        if inodes.isEmpty then .ok [] else connPhase env tmap inodes pid

/-- Go `NetConnections`. -/
def NetConnections (env : ProcEnv) (kind : String) :
    Except NetErr (List NetConnectionStat) :=
  NetConnectionsPid env kind 0

/-- Environment in which every I/O operation fails or is empty. -/
def emptyEnv : ProcEnv :=
  ⟨"/proc", fun _ => none, fun _ => none, fun _ => none, fun _ => false,
   some []⟩

/-- Environment exposing a one-row `/proc/net/tcp` and no processes. -/
def tcp4Env : ProcEnv :=
  ⟨"/proc",
   fun p =>
     if p = "/proc/net/tcp" then
       some ["  sl  local_address rem_address   st",
             "   0: 0500000A:0016 00000000:0000 0A 00000000:00000000 00:00000000 00000000     0        0 123 1"]
     else none,
   fun _ => none, fun _ => none, fun _ => false, some []⟩

/-- Plain base-16 unsigned numeral: non-empty, hex digits only.  This is the
reading of "valid base-16 unsigned integer" in the spec's port contract. -/
def isPlainHexNumeral (s : String) : Bool :=
  s ≠ "" ∧ s.data.all (fun c => (hexCharVal c).isSome)

/-- Claim C2, counterexample: the claim asserts the returned port equals
HEXPORT parsed base-16, but for the valid token "0500000A:100000000" the
parse yields 2^32 = 4294967296 while the returned port is `uint32`-truncated
to 0. -/
theorem decodeAddress_port_truncation_ctrex :
    decodeAddress AF_INET "0500000A:100000000" = .ok ⟨"10.0.0.5", 0⟩ ∧
    goParseHexPort "100000000" = some 4294967296 := by
  exact ⟨rfl, rfl⟩

/-- Claim C2 (amended): for every token splitting into HEXADDR and HEXPORT
where HEXADDR hex-decodes to the 4 bytes AA BB CC DD and HEXPORT parses
(Go `ParseInt("0x"+HEXPORT, 0, 64)`) to v, `decodeAddress` with the INET
family returns the dotted-decimal string "DD.CC.BB.AA" (byte sequence
reversed) and the port v reduced modulo 2^32; in particular
"0500000A:0016" yields "10.0.0.5" and port 22. -/
theorem decodeAddress_inet4 (src a p : String) (b0 b1 b2 b3 v : Nat)
    (hsplit : goSplit src ':' = [a, p])
    (hport : goParseHexPort p = some v)
    (hhex : hexDecode a = some [b0, b1, b2, b3]) :
    decodeAddress AF_INET src =
      .ok ⟨Nat.repr b3 ++ "." ++ Nat.repr b2 ++ "." ++ Nat.repr b1 ++ "." ++
             Nat.repr b0, v % 2 ^ 32⟩ ∧
    decodeAddress AF_INET "0500000A:0016" = .ok ⟨"10.0.0.5", 22⟩ := by
  constructor
  · simp only [decodeAddress, hsplit, hport, hhex]
    simp [Reverse, ipToString, ip4Dotted]
  · rfl

/-- Witness for C2's amended theorem at the token "0500000A:0016". -/
theorem decodeAddress_inet4_witness :
    decodeAddress AF_INET "0500000A:0016" =
      .ok ⟨Nat.repr 10 ++ "." ++ Nat.repr 0 ++ "." ++ Nat.repr 0 ++ "." ++
             Nat.repr 5, 22 % 2 ^ 32⟩ :=
  (decodeAddress_inet4 "0500000A:0016" "0500000A" "0016" 5 0 0 10 22
    rfl rfl rfl).1

/-- Claim C3: for every token splitting into an address part and a port part
that parses to v, `decodeAddress` with the INET6 family fails with the
malformed-input error when the hex-decoded address is not 16 bytes, and
otherwise reverses each consecutive 4-byte group independently (`groupRev4`,
not a whole-sequence reverse) before rendering the canonical IPv6 string; in
particular "0085002452100113070057A13F025401:0035" yields
"2400:8500:1301:1052:a157:7:154:23f" and port 53. -/
theorem decodeAddress_inet6 (src a p : String) (bs : List Nat) (v : Nat)
    (hsplit : goSplit src ':' = [a, p])
    (hport : goParseHexPort p = some v)
    (hhex : hexDecode a = some bs) :
    (bs.length ≠ 16 → decodeAddress AF_INET6 src = .error .invalidIPv6) ∧
    (bs.length = 16 →
      decodeAddress AF_INET6 src =
        .ok ⟨ipToString (groupRev4 bs), v % 2 ^ 32⟩) ∧
    decodeAddress AF_INET6 "0085002452100113070057A13F025401:0035" =
      .ok ⟨"2400:8500:1301:1052:a157:7:154:23f", 53⟩ := by
  refine ⟨?_, ?_, rfl⟩
  · intro hlen
    simp only [decodeAddress, hsplit, hport, hhex, parseIPv6HexString,
      if_pos hlen]
    simp [AF_INET6, AF_INET]
  · intro hlen
    simp only [decodeAddress, hsplit, hport, hhex, parseIPv6HexString, hlen]
    simp [AF_INET6, AF_INET]

/-- Witness for C3's theorem at the spec's IPv6 example token. -/
theorem decodeAddress_inet6_witness :
    decodeAddress AF_INET6 "0085002452100113070057A13F025401:0035" =
      .ok ⟨ipToString (groupRev4 [0x00, 0x85, 0x00, 0x24, 0x52, 0x10, 0x01,
        0x13, 0x07, 0x00, 0x57, 0xA1, 0x3F, 0x02, 0x54, 0x01]), 53 % 2 ^ 32⟩ :=
  ((decodeAddress_inet6 "0085002452100113070057A13F025401:0035"
      "0085002452100113070057A13F025401" "0035"
      [0x00, 0x85, 0x00, 0x24, 0x52, 0x10, 0x01, 0x13, 0x07, 0x00, 0x57,
       0xA1, 0x3F, 0x02, 0x54, 0x01] 53 rfl rfl rfl).2.1) rfl

/-- Claim C9, counterexample: "FFFFFFFFFFFFFFFF" is a valid base-16 unsigned
integer (2^64 - 1), yet decoding fails (the code parses into a signed 64-bit
integer); and "1_6" is not a base-16 numeral, yet decoding succeeds with
port 22 (Go base-0 parsing accepts underscores).  Both contradict the claim
that decoding succeeds with the port equal to the numeral's value exactly
for valid base-16 unsigned right-hand parts. -/
theorem decodeAddress_port_claim_ctrex :
    isPlainHexNumeral "FFFFFFFFFFFFFFFF" = true ∧
    decodeAddress AF_INET "0500000A:FFFFFFFFFFFFFFFF" = .error .invalidPort ∧
    isPlainHexNumeral "1_6" = false ∧
    decodeAddress AF_INET "0500000A:1_6" = .ok ⟨"10.0.0.5", 22⟩ := by
  exact ⟨rfl, rfl, rfl, rfl⟩

/-- Claim C9 (amended): `decodeAddress` fails with the malformed-input error
for every token that does not split on ':' into exactly two parts; otherwise
the port is computed by parsing "0x" ++ RHS as a Go base-prefixed signed
64-bit integer (hex digits, optional underscores between digits, value below
2^63), failing with the malformed-input port error exactly when that parse
fails; when decoding succeeds the returned port is the parsed value reduced
modulo 2^32. -/
theorem decodeAddress_port_semantics (family : Nat) (src : String) :
    ((goSplit src ':').length ≠ 2 →
      decodeAddress family src = .error .noPort) ∧
    (∀ a p, goSplit src ':' = [a, p] →
      (goParseHexPort p = none →
        decodeAddress family src = .error .invalidPort) ∧
      (∀ v, goParseHexPort p = some v →
        decodeAddress family src ≠ .error .invalidPort ∧
        ∀ r, decodeAddress family src = .ok r → r.port = v % 2 ^ 32)) := by
  constructor
  · intro hlen
    unfold decodeAddress
    match h : goSplit src ':' with
    | [] => rfl
    | [a] => rfl
    | [a, p] => rw [h] at hlen; simp at hlen
    | a :: b :: c :: rest => rfl
  · intro a p hsplit
    constructor
    · intro hnone
      simp only [decodeAddress, hsplit, hnone]
    · intro v hv
      constructor
      · simp only [decodeAddress, hsplit, hv]
        cases hd : hexDecode a with
        | none => simp
        | some decoded =>
          by_cases hf : family = AF_INET
          · simp [hf]
          · simp only [if_neg hf]
            cases hp : parseIPv6HexString decoded with
            | none => simp
            | some bs => simp
      · intro r hr
        simp only [decodeAddress, hsplit, hv] at hr
        split at hr
        · exact absurd hr (by simp)
        · split at hr
          · simp only [Except.ok.injEq] at hr
            rw [← hr]
          · split at hr
            · exact absurd hr (by simp)
            · simp only [Except.ok.injEq] at hr
              rw [← hr]

/-- Witness for C9's amended theorem at the token "0500000A:0016". -/
theorem decodeAddress_port_semantics_witness :
    (Addr.mk "10.0.0.5" 22).port = 22 % 2 ^ 32 :=
  (((decodeAddress_port_semantics AF_INET "0500000A:0016").2
      "0500000A" "0016" rfl).2 22 rfl).2 ⟨"10.0.0.5", 22⟩ rfl

/-- The kind map is populated exactly at the spec's eleven kind strings. -/
theorem kindMap_isSome_iff (kind : String) :
    (netConnectionKindMap kind).isSome = true ↔ kind ∈ validKinds := by
  constructor
  · intro h
    by_contra hmem
    simp only [validKinds, List.mem_cons, List.not_mem_nil, or_false,
      not_or] at hmem
    obtain ⟨h1, h2, h3, h4, h5, h6, h7, h8, h9, h10, h11⟩ := hmem
    simp only [netConnectionKindMap, if_neg h1, if_neg h2, if_neg h3,
      if_neg h4, if_neg h5, if_neg h6, if_neg h7, if_neg h8, if_neg h9,
      if_neg h10, if_neg h11] at h
    simp at h
  · intro h
    simp only [validKinds] at h
    fin_cases h <;> rfl

/-- Claim C4: for every kind string outside the set {all, tcp, tcp4, tcp6,
udp, udp4, udp6, unix, inet, inet4, inet6}, `NetConnections` and
`NetConnectionsPid` (for any pid) fail with the invalid-kind error uniformly
in the I/O environment — i.e. before any filesystem access — and for every
kind in the set the validation lookup succeeds. -/
theorem netConnections_invalid_kind (kind : String) :
    (kind ∉ validKinds →
      ∀ env pid,
        NetConnectionsPid env kind pid = .error (.invalidKind kind) ∧
        NetConnections env kind = .error (.invalidKind kind)) ∧
    (kind ∈ validKinds → (netConnectionKindMap kind).isSome = true) := by
  constructor
  · intro hmem env pid
    have hnone : netConnectionKindMap kind = none := by
      rcases h : netConnectionKindMap kind with _ | t
      · rfl
      · exact absurd ((kindMap_isSome_iff kind).mp (by rw [h]; rfl)) hmem
    constructor <;> simp [NetConnectionsPid, NetConnections, hnone]
  · exact fun h => (kindMap_isSome_iff kind).mpr h

/-- Witness for C4 at the spec's "invalidkind" example, in the environment
where every I/O operation fails. -/
theorem netConnections_invalid_kind_witness :
    NetConnectionsPid emptyEnv "invalidkind" 3 =
      .error (.invalidKind "invalidkind") ∧
    NetConnections emptyEnv "invalidkind" =
      .error (.invalidKind "invalidkind") :=
  (netConnections_invalid_kind "invalidkind").1 (by decide) emptyEnv 3

/-- Claim C5: `getProcInodes` returns an empty map and no error when the fd
directory cannot be read, and for every valid kind and pid > 0 whose inode
index is empty, `NetConnectionsPid` returns an empty list and no error,
whatever sockets the rest of the environment holds. -/
theorem netConnectionsPid_empty_inodes (env : ProcEnv) (kind : String)
    (pid : Int) :
    (env.readDir (fdDirPath env.root pid) = none →
      getProcInodes env pid = .ok []) ∧
    ((netConnectionKindMap kind).isSome = true → 0 < pid →
      getProcInodes env pid = .ok [] →
      NetConnectionsPid env kind pid = .ok []) := by
  constructor
  · intro h
    simp [getProcInodes, h]
  · intro hk hpid hino
    obtain ⟨tmap, htm⟩ := Option.isSome_iff_exists.mp hk
    have hne : pid ≠ 0 := by omega
    simp [NetConnectionsPid, htm, hne, hino]

/-- Witness for C5 with kind "tcp", pid 1, in the environment where the fd
directory cannot be read. -/
theorem netConnectionsPid_empty_inodes_witness :
    NetConnectionsPid emptyEnv "tcp" 1 = .ok [] :=
  (netConnectionsPid_empty_inodes emptyEnv "tcp" 1).2 rfl (by decide)
    ((netConnectionsPid_empty_inodes emptyEnv "tcp" 1).1 rfl)

/-- Invariant of the duplicate-check loop: the result list has no structural
duplicates and every emitted record is registered in the seen-key set. -/
def dedupInv (acc : List NetConnectionStat × List NetConnectionStat) : Prop :=
  acc.1.Nodup ∧ ∀ x ∈ acc.1, x ∈ acc.2

theorem dedupStep_inv (acc : List NetConnectionStat × List NetConnectionStat)
    (c : ConnTmp) (h : dedupInv acc) : dedupInv (dedupStep acc c) := by
  obtain ⟨hnd, hsub⟩ := h
  unfold dedupStep dedupKey
  by_cases hm : mkStat c ∈ acc.2
  · simpa [hm] using ⟨hnd, hsub⟩
  · simp only [hm, if_false, ite_false]
    constructor
    · rw [List.nodup_append]
      refine ⟨hnd, List.nodup_singleton _, ?_⟩
      intro x hx hy
      rw [List.mem_singleton] at hy
      exact hm (hy ▸ hsub x hx)
    · intro x hx
      rcases List.mem_append.mp hx with hx | hx
      · exact List.mem_cons_of_mem _ (hsub x hx)
      · rw [List.mem_singleton] at hx
        exact hx ▸ List.mem_cons_self _ _

theorem dedupFold_inv (cs : List ConnTmp)
    (acc : List NetConnectionStat × List NetConnectionStat)
    (h : dedupInv acc) : dedupInv (dedupFold cs acc) := by
  induction cs generalizing acc with
  | nil => exact h
  | cons c cs ih =>
    simp only [dedupFold, List.foldl_cons] at *
    exact ih _ (dedupStep_inv _ _ h)

theorem connKindsLoop_inv (env : ProcEnv) (inodes : InodeIndex) (pid : Int)
    (ts : List NetConnectionKindType)
    (acc res : List NetConnectionStat × List NetConnectionStat)
    (h : dedupInv acc) (hres : connKindsLoop env inodes pid ts acc = .ok res) :
    dedupInv res := by
  induction ts generalizing acc with
  | nil =>
    simp only [connKindsLoop, Except.ok.injEq] at hres
    exact hres ▸ h
  | cons t ts ih =>
    simp only [connKindsLoop] at hres
    cases hp : runParser env inodes pid t with
    | error e => rw [hp] at hres; simp at hres
    | ok ls =>
      rw [hp] at hres
      exact ih _ (dedupFold_inv ls acc h) hres

theorem connPhase_nodup (env : ProcEnv) (tmap : List NetConnectionKindType)
    (inodes : InodeIndex) (pid : Int) (l : List NetConnectionStat)
    (h : connPhase env tmap inodes pid = .ok l) : l.Nodup := by
  unfold connPhase at h
  cases hc : connKindsLoop env inodes pid tmap ([], []) with
  | error e => rw [hc] at h; simp at h
  | ok acc =>
    rw [hc] at h
    simp only [Except.ok.injEq] at h
    have hinv := connKindsLoop_inv env inodes pid tmap ([], []) acc
      ⟨List.nodup_nil, by simp⟩ hc
    exact h ▸ hinv.1

/-- Claim C1: for every environment, kind and pid, a successful
`NetConnectionsPid` result contains no two records that are structurally
identical on the full field tuple (fd, family, type, local address, remote
address, status, pid) — duplicate records produced by multiple
ownership-index matches collapse to one entry. -/
theorem netConnectionsPid_nodup (env : ProcEnv) (kind : String) (pid : Int)
    (l : List NetConnectionStat)
    (h : NetConnectionsPid env kind pid = .ok l) : l.Nodup := by
  unfold NetConnectionsPid at h
  cases hk : netConnectionKindMap kind with
  | none => rw [hk] at h; simp at h
  | some tmap =>
    rw [hk] at h
    dsimp only at h
    by_cases hp : pid = 0
    · rw [if_pos hp] at h
      cases hg : getProcInodesAll env with
      | error e => rw [hg] at h; cases e <;> simp at h
      | ok inodes =>
        rw [hg] at h
        exact connPhase_nodup _ _ _ _ _ h
    · rw [if_neg hp] at h
      cases hg : getProcInodes env pid with
      | error e => rw [hg] at h; simp at h
      | ok inodes =>
        rw [hg] at h
        dsimp only at h
        by_cases he : inodes.isEmpty
        · rw [if_pos he] at h
          simp only [Except.ok.injEq] at h
          exact h ▸ List.nodup_nil
        · rw [if_neg he] at h
          exact connPhase_nodup _ _ _ _ _ h

/-- Witness for C1: the one-row `/proc/net/tcp` environment yields a
one-record duplicate-free list. -/
theorem netConnectionsPid_nodup_witness :
    List.Nodup [(⟨0, 2, 1, ⟨"10.0.0.5", 22⟩, ⟨"0.0.0.0", 0⟩, "LISTEN", 0⟩ :
      NetConnectionStat)] :=
  netConnectionsPid_nodup tcp4Env "tcp4" 0 _ (by rfl)

/-- Claim C6: the UNIX table parser skips data lines with fewer than 6
fields, but a line with exactly 6 fields is not processed safely: the code
reads `tokens[6]` behind a `len(tokens) < 6` guard, an out-of-range index
(Go panic) on the 6-token line below, contradicting the claimed safety for
all lines with at least 6 fields. -/
theorem processUnix_six_token_line :
    (goFields "0000000000000000: 00000002 00000000 00010000 0001 01").length
      = 6 ∧
    processUnixLoop kindUNIX [] 0
      ["0000000000000000: 00000002 00000000 00010000 0001 01"] =
      .error .oob ∧
    processUnixLoop kindUNIX [] 0 ["a b c d e"] = .ok [] := by
  exact ⟨rfl, rfl, rfl⟩

/-- Well-formed inode index: no key is bound to an empty owner list (the
indexes built from real fd directories satisfy this; `processInet` panics on
`i[0]` otherwise). -/
def wfIndex (inodes : InodeIndex) : Prop :=
  ∀ k ps, lookupIndex inodes k = some ps → ps ≠ []

/-- Claim C7: a numeric parse failure of the UNIX parser's socket-type field
(field 4) aborts the whole `processUnix` parse with an error, whereas a
decode failure of the local address token in `processInet` skips only that
row, and over a well-formed index the INET row loop always succeeds on the
remaining rows. -/
theorem unix_fatal_inet_skips (kind : NetConnectionKindType)
    (inodes : InodeIndex) (fpid : Int) :
    (∀ line rest, 6 ≤ (goFields line).length →
      goAtoi ((goFields line).getD 4 "") = none →
      processUnixLoop kind inodes fpid (line :: rest) =
        .error .strconvError) ∧
    (∀ line rest e, wfIndex inodes → 10 ≤ (goFields line).length →
      decodeAddress kind.family ((goFields line).getD 1 "") = .error e →
      processInetLoop kind inodes fpid (line :: rest) =
        processInetLoop kind inodes fpid rest) ∧
    (∀ lines, wfIndex inodes →
      ∃ res, processInetLoop kind inodes fpid lines = .ok res) := by
  refine ⟨?_, ?_, ?_⟩
  · intro line rest hlen hatoi
    simp only [processUnixLoop]
    rw [if_neg (by omega), hatoi]
  · intro line rest e hwf hlen hdec
    simp only [processInetLoop]
    rw [if_neg (by omega)]
    cases hl : lookupIndex inodes ((goFields line).getD 9 "") with
    | none =>
      dsimp only
      split
      · rfl
      · rw [hdec]
    | some ps =>
      cases ps with
      | nil => exact absurd hl (fun hc => hwf _ _ hc rfl)
      | cons x xs =>
        dsimp only
        split
        · rfl
        · rw [hdec]
  · intro lines hwf
    induction lines with
    | nil => exact ⟨[], rfl⟩
    | cons line rest ih =>
      obtain ⟨res, hres⟩ := ih
      simp only [processInetLoop]
      by_cases hlen : (goFields line).length < 10
      · rw [if_pos hlen]
        exact ⟨res, hres⟩
      · rw [if_neg hlen]
        cases hl : lookupIndex inodes ((goFields line).getD 9 "") with
        | none =>
          dsimp only
          split
          · exact ⟨res, hres⟩
          · cases hdl : decodeAddress kind.family ((goFields line).getD 1 "") with
            | error e => exact ⟨res, hres⟩
            | ok la =>
              cases hdr : decodeAddress kind.family ((goFields line).getD 2 "") with
              | error e => exact ⟨res, hres⟩
              | ok ra => rw [hres]; exact ⟨_, rfl⟩
        | some ps =>
          cases ps with
          | nil => exact absurd hl (fun hc => hwf _ _ hc rfl)
          | cons x xs =>
            dsimp only
            split
            · exact ⟨res, hres⟩
            · cases hdl : decodeAddress kind.family ((goFields line).getD 1 "") with
              | error e => exact ⟨res, hres⟩
              | ok la =>
                cases hdr : decodeAddress kind.family ((goFields line).getD 2 "") with
                | error e => exact ⟨res, hres⟩
                | ok ra => rw [hres]; exact ⟨_, rfl⟩

/-- Witness for C7: a 7-token UNIX row with non-numeric field 4 aborts the
parse; an INET row with an undecodable local address is skipped and the
remaining (empty) parse succeeds. -/
theorem unix_fatal_inet_skips_witness :
    processUnixLoop kindUNIX [] 0 ["0: 1 2 3 zz 5 6"] =
      .error .strconvError ∧
    processInetLoop kindTCP4 [] 0 ["0: ZZ 00000000:0000 0A 0:0 0 0 0 0 1"] =
      .ok [] := by
  constructor
  · exact (unix_fatal_inet_skips kindUNIX [] 0).1 "0: 1 2 3 zz 5 6" []
      (by decide) (by decide)
  · exact ((unix_fatal_inet_skips kindTCP4 [] 0).2.1
      "0: ZZ 00000000:0000 0A 0:0 0 0 0 0 1" [] .noPort
      (fun k ps h => by simp [lookupIndex] at h) (by decide) rfl).trans
      rfl

/-- Every protocol in a successful `protoLoop` result was requested. -/
theorem protoLoop_mem (protos : List String) (n : Nat) :
    ∀ lines stats, lines.length ≤ n → protoLoop protos lines = .ok stats →
    ∀ s ∈ stats, s.protocol ∈ protos := by
  induction n with
  | zero =>
    intro lines stats hl h s hs
    cases lines with
    | nil =>
      simp only [protoLoop, Except.ok.injEq] at h
      subst h
      simp at hs
    | cons l r => simp at hl
  | succ n ih =>
    intro lines stats hl h s hs
    rcases lines with _ | ⟨line, _ | ⟨vline, rest2⟩⟩
    · simp only [protoLoop, Except.ok.injEq] at h
      subst h
      simp at hs
    · simp only [protoLoop] at h
      cases hc : strIndexOfColon line with
      | none => rw [hc] at h; simp at h
      | some r =>
        simp only [hc] at h
        by_cases hm : strToLower (strTake line r) ∈ protos
        · rw [if_pos hm] at h; simp at h
        · rw [if_neg hm] at h
          simp only [Except.ok.injEq] at h
          subst h
          simp at hs
    · simp only [protoLoop] at h
      cases hc : strIndexOfColon line with
      | none => rw [hc] at h; simp at h
      | some r =>
        simp only [hc] at h
        by_cases hm : strToLower (strTake line r) ∈ protos
        · rw [if_pos hm] at h
          by_cases hsl : line.length < r + 2
          · rw [if_pos hsl] at h; simp at h
          · rw [if_neg hsl] at h
            by_cases hsv : vline.length < r + 2
            · rw [if_pos hsv] at h; simp at h
            · rw [if_neg hsv] at h
              by_cases hmis :
                  (goSplit (strDrop line (r + 2)) ' ').length ≠
                    (goSplit (strDrop vline (r + 2)) ' ').length
              · rw [if_pos hmis] at h; simp at h
              · rw [if_neg hmis] at h
                cases hv : (goSplit (strDrop vline (r + 2)) ' ').mapM
                    (goParseIntDec 64) with
                | none => rw [hv] at h; simp at h
                | some vals =>
                  rw [hv] at h
                  dsimp only at h
                  cases hrec : protoLoop protos rest2 with
                  | error e => rw [hrec] at h; simp at h
                  | ok stats2 =>
                    rw [hrec] at h
                    simp only [Except.ok.injEq] at h
                    subst h
                    rcases List.mem_cons.mp hs with hs | hs
                    · subst hs; exact hm
                    · exact ih rest2 stats2
                        (by simp only [List.length_cons] at hl; omega) hrec
                        s hs
        · rw [if_neg hm] at h
          exact ih rest2 stats
            (by simp only [List.length_cons] at hl; omega) h s hs

/-- Claim C8: with a non-empty request list, a requested protocol whose
header and value lines split into different token counts makes
`NetProtoCounters` fail with the format error; a protocol absent from the
request list has both of its lines skipped without parsing (the call equals
the call on the remaining lines); and every protocol in a successful result
is in the request list, so an omitted protocol is absent from the result. -/
theorem netProtoCounters_mismatch_skip (protocols : List String) :
    (∀ h v rest r, protocols ≠ [] → strIndexOfColon h = some r →
      strToLower (strTake h r) ∈ protocols →
      ¬ h.length < r + 2 → ¬ v.length < r + 2 →
      (goSplit (strDrop h (r + 2)) ' ').length ≠
        (goSplit (strDrop v (r + 2)) ' ').length →
      NetProtoCounters protocols (h :: v :: rest) = .error .mismatch) ∧
    (∀ h v rest r, protocols ≠ [] → strIndexOfColon h = some r →
      strToLower (strTake h r) ∉ protocols →
      NetProtoCounters protocols (h :: v :: rest) =
        NetProtoCounters protocols rest) ∧
    (∀ lines stats, protocols ≠ [] →
      NetProtoCounters protocols lines = .ok stats →
      ∀ s ∈ stats, s.protocol ∈ protocols) := by
  have hnil : protocols ≠ [] → protocols.isEmpty = false := by
    intro hne
    cases protocols with
    | nil => exact absurd rfl hne
    | cons a l => rfl
  refine ⟨?_, ?_, ?_⟩
  · intro h v rest r hne hc hm hsl hsv hmis
    simp only [NetProtoCounters, hnil hne, if_false, Bool.false_eq_true,
      protoLoop]
    simp only [hc]
    rw [if_pos hm, if_neg hsl]
    rw [if_neg hsv, if_pos hmis]
  · intro h v rest r hne hc hm
    simp only [NetProtoCounters, hnil hne, if_false, Bool.false_eq_true,
      protoLoop]
    simp only [hc]
    rw [if_neg hm]
  · intro lines stats hne hok s hs
    have := protoLoop_mem protocols lines.length lines stats le_rfl
    simp only [NetProtoCounters, hnil hne, if_false, Bool.false_eq_true] at hok
    exact this hok s hs

/-- Witness for C8: a synthetic snmp file with a 2-label/1-value "Tcp" pair
fails with the format error, and a file starting with an unrequested "Tcp"
pair is parsed as if the pair were absent. -/
theorem netProtoCounters_mismatch_skip_witness :
    NetProtoCounters ["tcp"] ["Tcp: A B", "Tcp: 1"] = .error .mismatch ∧
    NetProtoCounters ["udp"] ["Tcp: A B", "Tcp: 1 2", "Udp: X", "Udp: 9"] =
      NetProtoCounters ["udp"] ["Udp: X", "Udp: 9"] := by
  constructor
  · exact (netProtoCounters_mismatch_skip ["tcp"]).1 "Tcp: A B" "Tcp: 1" [] 3
      (by decide) rfl (by decide) (by decide) (by decide) (by decide)
  · exact (netProtoCounters_mismatch_skip ["udp"]).2.1 "Tcp: A B" "Tcp: 1 2"
      ["Udp: X", "Udp: 9"] 3 (by decide) rfl (by decide)

/-- Well-formed sample `/proc/net/snmp` lines with one header/value pair per
known protocol. -/
def sampleSnmp : List String :=
  ["Ip: Forwarding DefaultTTL", "Ip: 1 64",
   "Icmp: InMsgs", "Icmp: 0",
   "IcmpMsg: InType3", "IcmpMsg: 4",
   "Tcp: ActiveOpens", "Tcp: 5",
   "Udp: InDatagrams", "Udp: 6",
   "UdpLite: InDatagrams", "UdpLite: 7"]

/-- Claim C10: `NetProtoCounters` with an empty request list behaves exactly
as if all six known protocols had been requested, and on a well-formed file
containing all six pairs it returns one counter set per known protocol, in
order, with no error. -/
theorem netProtoCounters_empty_request :
    (∀ lines, NetProtoCounters [] lines = protoLoop netProtocols lines) ∧
    NetProtoCounters [] sampleSnmp =
      .ok [⟨"ip", [("Forwarding", 1), ("DefaultTTL", 64)]⟩,
           ⟨"icmp", [("InMsgs", 0)]⟩,
           ⟨"icmpmsg", [("InType3", 4)]⟩,
           ⟨"tcp", [("ActiveOpens", 5)]⟩,
           ⟨"udp", [("InDatagrams", 6)]⟩,
           ⟨"udplite", [("InDatagrams", 7)]⟩] ∧
    (NetProtoCounters [] sampleSnmp).map
        (fun stats => stats.map NetProtoCountersStat.protocol) =
      .ok netProtocols := by
  exact ⟨fun lines => rfl, rfl, rfl⟩
